import Mathlib

/-!
Verification of the LearnOpenGL basic-lighting demos.

The development shallowly embeds the two pieces of the repository the
specification calls the core:

* `generateSphere` — the procedural UV-sphere mesh generator of
  `basic_lighting_specular.cpp` (a temporary `(stackCount+1) × (sectorCount+1)`
  vertex grid followed by a per-cell triangulation pass that appends
  interleaved position/normal floats to the caller's vector);
* the per-tick light animation and the multi-window render loop of the
  three-window demo (light orbit, per-window uniform updates, the loop's
  close-condition and the per-window skip, and the teardown paths of `main`).

Machine floats are modelled by an arbitrary field (instantiated at `ℝ` for the
trigonometric facts and at `ℚ` for concrete evaluations); the C library
primitives `M_PI`, `sinf`, `cosf` are passed in as a record of operations.
-/

/-- The math-library primitives used by the mesh generator (`M_PI`, `sinf`,
`cosf`), abstracted so the generator can be instantiated both at `ℝ` (with the
genuine trigonometric functions) and at computable fields for evaluation. -/
structure TrigOps (α : Type) where
  pi : α
  sin : α → α
  cos : α → α

/-- The real-number instantiation of the math primitives. -/
noncomputable def realTrig : TrigOps ℝ :=
  { pi := Real.pi, sin := Real.sin, cos := Real.cos }

/-- A trivial computable instantiation at `ℚ`, used only to evaluate the
structural (value-independent) facts on concrete inputs. -/
def ratTrig : TrigOps ℚ :=
  { pi := 0, sin := fun _ => 0, cos := fun _ => 0 }

/-- One vertex of the temporary grid built by the first double loop of
`generateSphere`: for stack index `i` and sector index `j` it pushes
`x, y, z, nx, ny, nz` where `stackAngle = π/2 - i·(π/stackCount)`,
`sectorAngle = j·(2π/sectorCount)`, `xy = radius·cos(stackAngle)`,
`z = radius·sin(stackAngle)`, `x = xy·cos(sectorAngle)`,
`y = xy·sin(sectorAngle)` and the normal is the position divided by the
radius. -/
def gridChunk {α : Type} [Field α] (ops : TrigOps α) (radius : α)
    (sectorCount stackCount i j : ℕ) : List α :=
  let stackAngle := ops.pi / 2 - (i : α) * (ops.pi / (stackCount : α))
  let xy := radius * ops.cos stackAngle
  let z := radius * ops.sin stackAngle
  let sectorAngle := (j : α) * (2 * ops.pi / (sectorCount : α))
  let x := xy * ops.cos sectorAngle
  let y := xy * ops.sin sectorAngle
  [x, y, z, x / radius, y / radius, z / radius]

/-- The temporary vertex buffer `tempVertices` of `generateSphere`: the outer
loop runs `i = 0..stackCount`, the inner loop `j = 0..sectorCount`, each
iteration appending the six floats of `gridChunk`. -/
def sphereGridVertices {α : Type} [Field α] (ops : TrigOps α) (radius : α)
    (sectorCount stackCount : ℕ) : List α :=
  (List.range (stackCount + 1)).flatMap fun i =>
    (List.range (sectorCount + 1)).flatMap fun j =>
      gridChunk ops radius sectorCount stackCount i j

/-- Reading the six floats of grid vertex `idx` out of the temporary buffer:
`for k in 0..5: tempVertices[idx*6+k]`. -/
def vertexData {α : Type} [Field α] (temp : List α) (idx : ℕ) : List α :=
  (List.range 6).map fun k => temp.getD (idx * 6 + k) 0

/-- The body of the triangulation double loop of `generateSphere` for grid
cell `(i, j)`: corners `k1 = i·(sectorCount+1)+j`, `k2 = k1+1`,
`k3 = (i+1)·(sectorCount+1)+j`, `k4 = k3+1`; the triangle `(k1,k2,k3)` is
emitted when `i ≠ 0` and the triangle `(k2,k4,k3)` when
`i ≠ stackCount-1`. -/
def cellEmit {α : Type} [Field α] (temp : List α)
    (sectorCount stackCount i j : ℕ) : List α :=
  let k1 := i * (sectorCount + 1) + j
  let k2 := k1 + 1
  let k3 := (i + 1) * (sectorCount + 1) + j
  let k4 := k3 + 1
  (if i ≠ 0 then
    vertexData temp k1 ++ vertexData temp k2 ++ vertexData temp k3
  else []) ++
  (if i ≠ stackCount - 1 then
    vertexData temp k2 ++ vertexData temp k4 ++ vertexData temp k3
  else [])

/-- The `generateSphere` function: builds the temporary grid, then appends the
per-cell triangle data (cells iterated row-major, `i = 0..stackCount-1` outer,
`j = 0..sectorCount-1` inner) to the caller-supplied `vertices` vector. -/
def generateSphere {α : Type} [Field α] (ops : TrigOps α) (vertices : List α)
    (radius : α) (sectorCount stackCount : ℕ) : List α :=
  let tempVertices := sphereGridVertices ops radius sectorCount stackCount
  vertices ++ ((List.range stackCount).flatMap fun i =>
    (List.range sectorCount).flatMap fun j =>
      cellEmit tempVertices sectorCount stackCount i j)

/-- The sequence of grid-vertex indices referenced by the triangulation pass of
one cell, in emission order. -/
def cellTriIndices (sectorCount stackCount i j : ℕ) : List ℕ :=
  let k1 := i * (sectorCount + 1) + j
  let k2 := k1 + 1
  let k3 := (i + 1) * (sectorCount + 1) + j
  let k4 := k3 + 1
  (if i ≠ 0 then [k1, k2, k3] else []) ++
  (if i ≠ stackCount - 1 then [k2, k4, k3] else [])

/-- All grid-vertex indices referenced by the triangulation pass, in emission
order. -/
def sphereTriIndices (sectorCount stackCount : ℕ) : List ℕ :=
  (List.range stackCount).flatMap fun i =>
    (List.range sectorCount).flatMap fun j =>
      cellTriIndices sectorCount stackCount i j

section ListHelpers

variable {α β : Type}

/-- Length of a `flatMap` whose pieces all have the same length. -/
theorem length_flatMap_const (l : List β) (f : β → List α) (c : ℕ)
    (h : ∀ x ∈ l, (f x).length = c) : (l.flatMap f).length = l.length * c := by
  induction l with
  | nil => simp
  | cons a t ih =>
    have ha : (f a).length = c := h a (List.mem_cons_self a t)
    have ht := ih fun x hx => h x (List.mem_cons_of_mem a hx)
    simp [List.flatMap_cons, ha, ht, Nat.succ_mul, Nat.add_comm]

/-- Indexing into a `flatMap` whose pieces all have length `c`: position
`m*c + r` falls in the `m`-th piece at offset `r`. -/
theorem flatMap_getD_const (l : List β) (f : β → List α) (c : ℕ)
    (hc : ∀ x, (f x).length = c) (m r : ℕ) (d : α) (e : β)
    (hm : m < l.length) (hr : r < c) :
    (l.flatMap f).getD (m * c + r) d = (f (l.getD m e)).getD r d := by
  induction l generalizing m with
  | nil => simp at hm
  | cons a t ih =>
    rw [List.flatMap_cons]
    cases m with
    | zero =>
      have hlt : 0 * c + r < (f a).length := by rw [hc a]; omega
      rw [List.getD_append _ _ _ _ hlt]
      simp
    | succ m' =>
      have hge : (f a).length ≤ (m' + 1) * c + r := by
        rw [hc a]
        have : c ≤ (m' + 1) * c := Nat.le_mul_of_pos_left c (Nat.succ_pos m')
        omega
      rw [List.getD_append_right _ _ _ _ hge]
      have harith : (m' + 1) * c + r - (f a).length = m' * c + r := by
        rw [hc a]; rw [Nat.succ_mul]; omega
      rw [harith]
      have hm' : m' < t.length := by simpa using hm
      simpa using ih m' hm'

end ListHelpers

/-- A grid chunk always holds six floats. -/
theorem gridChunk_length {α : Type} [Field α] (ops : TrigOps α) (radius : α)
    (sectorCount stackCount i j : ℕ) :
    (gridChunk ops radius sectorCount stackCount i j).length = 6 := by
  simp [gridChunk]

/-- A vertex read from the temporary buffer always yields six floats. -/
theorem vertexData_length {α : Type} [Field α] (temp : List α) (idx : ℕ) :
    (vertexData temp idx).length = 6 := by
  simp [vertexData]

/-- The temporary vertex grid holds `6·(stackCount+1)·(sectorCount+1)`
floats. -/
theorem sphereGridVertices_length {α : Type} [Field α] (ops : TrigOps α)
    (radius : α) (sectorCount stackCount : ℕ) :
    (sphereGridVertices ops radius sectorCount stackCount).length =
      6 * (stackCount + 1) * (sectorCount + 1) := by
  unfold sphereGridVertices
  rw [length_flatMap_const _ _ ((sectorCount + 1) * 6) fun i _ => by
    rw [length_flatMap_const _ _ 6 fun j _ => gridChunk_length ops radius _ _ i j]
    simp]
  simp [List.length_range]
  ring

/-- Summing a constant with one index of the range excluded. -/
theorem sum_ite_ne_range (n b a : ℕ) (hb : b < n) :
    (∑ i ∈ Finset.range n, if i ≠ b then a else 0) = a * n - a := by
  have hsplit :
      ((∑ i ∈ Finset.range n, if i ≠ b then a else 0) +
        ∑ i ∈ Finset.range n, if i = b then a else 0) = a * n := by
    rw [← Finset.sum_add_distrib]
    have hcong : ∀ i ∈ Finset.range n,
        ((if i ≠ b then a else 0) + if i = b then a else 0) = a := by
      intro i _
      by_cases hib : i = b <;> simp [hib]
    rw [Finset.sum_congr rfl hcong, Finset.sum_const, Finset.card_range,
      smul_eq_mul, mul_comm]
  have heq : (∑ i ∈ Finset.range n, if i = b then a else 0) = a := by
    rw [Finset.sum_ite_eq' (Finset.range n) b fun _ => a]
    simp [hb]
  omega

/-- A cell references three indices per non-degenerate triangle. -/
theorem cellTriIndices_length (sectorCount stackCount i j : ℕ) :
    (cellTriIndices sectorCount stackCount i j).length =
      (if i ≠ 0 then 3 else 0) + (if i ≠ stackCount - 1 then 3 else 0) := by
  unfold cellTriIndices
  split_ifs <;> simp

/-- For `stackCount ≥ 2` the triangulation references
`6·sectorCount·(stackCount-1)` vertices: one triangle for each of the two polar
rows of cells, two for every interior cell. -/
theorem sphereTriIndices_length (sectorCount stackCount : ℕ)
    (hSt : 2 ≤ stackCount) :
    (sphereTriIndices sectorCount stackCount).length =
      6 * sectorCount * (stackCount - 1) := by
  unfold sphereTriIndices
  rw [List.length_flatMap]
  simp only [Function.comp_def]
  have hinner : ∀ i,
      ((List.range sectorCount).flatMap fun j =>
        cellTriIndices sectorCount stackCount i j).length =
      sectorCount *
        ((if i ≠ 0 then 3 else 0) + (if i ≠ stackCount - 1 then 3 else 0)) := by
    intro i
    rw [length_flatMap_const _ _ _ fun j _ => cellTriIndices_length sectorCount stackCount i j]
    simp
  have hmap : (List.range stackCount).map (fun i =>
        ((List.range sectorCount).flatMap fun j =>
          cellTriIndices sectorCount stackCount i j).length) =
      (List.range stackCount).map (fun i => sectorCount *
        ((if i ≠ 0 then 3 else 0) + (if i ≠ stackCount - 1 then 3 else 0))) := by
    exact List.map_congr_left fun i _ => hinner i
  rw [hmap]
  have hbridge : ((List.range stackCount).map (fun i => sectorCount *
        ((if i ≠ 0 then 3 else 0) + (if i ≠ stackCount - 1 then 3 else 0)))).sum =
      ∑ i ∈ Finset.range stackCount, sectorCount *
        ((if i ≠ 0 then 3 else 0) + (if i ≠ stackCount - 1 then 3 else 0)) := rfl
  rw [hbridge, ← Finset.mul_sum]
  have hsum : (∑ i ∈ Finset.range stackCount,
      ((if i ≠ 0 then 3 else 0) + (if i ≠ stackCount - 1 then 3 else 0))) =
      6 * (stackCount - 1) := by
    rw [Finset.sum_add_distrib]
    have h0 := sum_ite_ne_range stackCount 0 3 (by omega)
    have h1 := sum_ite_ne_range stackCount (stackCount - 1) 3 (by omega)
    omega
  rw [hsum]
  ring

/-- The per-cell emitted floats are exactly the vertex data of the per-cell
referenced indices, in order. -/
theorem cellEmit_eq_flatMap {α : Type} [Field α] (temp : List α)
    (sectorCount stackCount i j : ℕ) :
    cellEmit temp sectorCount stackCount i j =
      (cellTriIndices sectorCount stackCount i j).flatMap (vertexData temp) := by
  unfold cellEmit cellTriIndices
  split_ifs <;> simp [List.flatMap_cons, List.append_assoc]

/-- Decomposition of `generateSphere`: the initial vector, followed by the
vertex data of every referenced grid index in emission order. -/
theorem generateSphere_eq {α : Type} [Field α] (ops : TrigOps α)
    (vertices : List α) (radius : α) (sectorCount stackCount : ℕ) :
    generateSphere ops vertices radius sectorCount stackCount =
      vertices ++ (sphereTriIndices sectorCount stackCount).flatMap
        (vertexData (sphereGridVertices ops radius sectorCount stackCount)) := by
  unfold generateSphere sphereTriIndices
  rw [List.flatMap_assoc]
  exact congrArg _ (congrArg _ (funext fun i => by
    rw [List.flatMap_assoc]
    exact congrArg _ (funext fun j => cellEmit_eq_flatMap _ _ _ i j)))

/-- Every grid index referenced by a cell inside the loop ranges is strictly
below the number of grid vertices. -/
theorem cellTriIndices_bound (sectorCount stackCount i j k : ℕ)
    (hi : i < stackCount) (hj : j < sectorCount)
    (hk : k ∈ cellTriIndices sectorCount stackCount i j) :
    k < (stackCount + 1) * (sectorCount + 1) := by
  have h1 : (i + 1) * (sectorCount + 1) ≤ stackCount * (sectorCount + 1) :=
    Nat.mul_le_mul_right _ hi
  have e1 : (i + 1) * (sectorCount + 1) = i * (sectorCount + 1) + (sectorCount + 1) := by
    ring
  have e2 : (stackCount + 1) * (sectorCount + 1) =
      stackCount * (sectorCount + 1) + (sectorCount + 1) := by
    ring
  unfold cellTriIndices at hk
  rcases List.mem_append.mp hk with h | h <;> split at h <;>
    simp only [List.mem_cons, List.not_mem_nil, or_false, List.mem_singleton] at h <;>
    rcases h with h | h | h <;> omega

/-- Every grid index referenced by the triangulation pass is strictly below the
number of grid vertices. -/
theorem sphereTriIndices_bound (sectorCount stackCount k : ℕ)
    (hk : k ∈ sphereTriIndices sectorCount stackCount) :
    k < (stackCount + 1) * (sectorCount + 1) := by
  unfold sphereTriIndices at hk
  simp only [List.mem_flatMap, List.mem_range] at hk
  obtain ⟨i, hi, j, hj, hmem⟩ := hk
  exact cellTriIndices_bound sectorCount stackCount i j k hi hj hmem

/-- Total length of the data produced by `generateSphere`: the caller's vector
plus `36·sectorCount·(stackCount-1)` floats. -/
theorem generateSphere_length {α : Type} [Field α] (ops : TrigOps α)
    (vertices : List α) (radius : α) (sectorCount stackCount : ℕ)
    (hSt : 2 ≤ stackCount) :
    (generateSphere ops vertices radius sectorCount stackCount).length =
      vertices.length + 36 * sectorCount * (stackCount - 1) := by
  rw [generateSphere_eq, List.length_append,
    length_flatMap_const _ _ 6 fun idx _ => vertexData_length _ idx,
    sphereTriIndices_length sectorCount stackCount hSt]
  ring

/-- Reading offset `t < 6` of the vertex data of grid index `idx` is reading
`temp[idx*6+t]`. -/
theorem vertexData_getD {α : Type} [Field α] (temp : List α) (idx t : ℕ)
    (d : α) (ht : t < 6) :
    (vertexData temp idx).getD t d = temp.getD (idx * 6 + t) 0 := by
  unfold vertexData
  interval_cases t <;> rfl

/-- Reading offset `t < 6` of grid vertex `(i, j)` out of the temporary buffer
yields the corresponding component of that vertex's chunk. -/
theorem sphereGridVertices_getD {α : Type} [Field α] (ops : TrigOps α)
    (radius : α) (sectorCount stackCount i j t : ℕ) (d : α)
    (hi : i < stackCount + 1) (hj : j < sectorCount + 1) (ht : t < 6) :
    (sphereGridVertices ops radius sectorCount stackCount).getD
        ((i * (sectorCount + 1) + j) * 6 + t) d =
      (gridChunk ops radius sectorCount stackCount i j).getD t d := by
  unfold sphereGridVertices
  have harith : (i * (sectorCount + 1) + j) * 6 + t =
      i * ((sectorCount + 1) * 6) + (j * 6 + t) := by ring
  rw [harith]
  rw [flatMap_getD_const _ _ ((sectorCount + 1) * 6)
    (fun x => by
      rw [length_flatMap_const _ _ 6 fun y _ => gridChunk_length ops radius _ _ x y]
      simp)
    i (j * 6 + t) d 0 (by simpa using hi) (by omega)]
  have hrange : (List.range (stackCount + 1)).getD i 0 = i := by
    rw [List.getD_eq_getElem _ _ (by simpa using hi)]
    simp
  rw [hrange]
  rw [flatMap_getD_const _ _ 6 (fun y => gridChunk_length ops radius _ _ i y)
    j t d 0 (by simpa using hj) ht]
  have hrange' : (List.range (sectorCount + 1)).getD j 0 = j := by
    rw [List.getD_eq_getElem _ _ (by simpa using hj)]
    simp
  rw [hrange']

/-- Over the reals, every grid chunk satisfies the position/normal contract:
the position components equal `radius` times the normal components, and the
normal has unit length. -/
theorem gridChunk_props (radius : ℝ) (sectorCount stackCount i j : ℕ)
    (hr : 0 < radius) :
    ((gridChunk realTrig radius sectorCount stackCount i j).getD 0 0 =
        radius * (gridChunk realTrig radius sectorCount stackCount i j).getD 3 0 ∧
      (gridChunk realTrig radius sectorCount stackCount i j).getD 1 0 =
        radius * (gridChunk realTrig radius sectorCount stackCount i j).getD 4 0 ∧
      (gridChunk realTrig radius sectorCount stackCount i j).getD 2 0 =
        radius * (gridChunk realTrig radius sectorCount stackCount i j).getD 5 0) ∧
    ((gridChunk realTrig radius sectorCount stackCount i j).getD 3 0) ^ 2 +
      ((gridChunk realTrig radius sectorCount stackCount i j).getD 4 0) ^ 2 +
      ((gridChunk realTrig radius sectorCount stackCount i j).getD 5 0) ^ 2 = 1 := by
  have hr' : radius ≠ 0 := ne_of_gt hr
  simp only [gridChunk, realTrig, List.getD_cons_zero, List.getD_cons_succ]
  set u := Real.pi / 2 - (i : ℝ) * (Real.pi / (stackCount : ℝ)) with hu
  set v := (j : ℝ) * (2 * Real.pi / (sectorCount : ℝ)) with hv
  refine ⟨⟨by field_simp, by field_simp, by field_simp⟩, ?_⟩
  field_simp
  linear_combination (radius ^ 2 * Real.cos u ^ 2) * Real.sin_sq_add_cos_sq v +
    radius ^ 2 * Real.sin_sq_add_cos_sq u

/-- Claim C1: for `radius > 0`, `sectorCount ≥ 3`, `stackCount ≥ 2`,
`generateSphere` emits exactly `6·sectorCount·(stackCount-1)` vertices —
`2·sectorCount·(stackCount-1)` triangles of 3 vertices each, 6 floats per
vertex — matching the spec's output-size formula. -/
theorem generateSphere_vertex_count {α : Type} [LinearOrderedField α]
    (ops : TrigOps α) (radius : α) (sectorCount stackCount : ℕ)
    (hr : 0 < radius) (hS : 3 ≤ sectorCount) (hSt : 2 ≤ stackCount) :
    (generateSphere ops [] radius sectorCount stackCount).length =
      6 * sectorCount * (stackCount - 1) * 6 ∧
    (generateSphere ops [] radius sectorCount stackCount).length / 6 =
      6 * sectorCount * (stackCount - 1) := by
  have h := generateSphere_length ops [] radius sectorCount stackCount hSt
  simp only [List.length_nil, Nat.zero_add] at h
  have h1 : (generateSphere ops [] radius sectorCount stackCount).length =
      36 * (sectorCount * (stackCount - 1)) := by rw [h]; ring
  have h2 : 6 * sectorCount * (stackCount - 1) =
      6 * (sectorCount * (stackCount - 1)) := by ring
  constructor
  · rw [h1, h2]; ring
  · rw [h1, h2]; omega

/-- Witness for claim C1 at `radius = 1`, `sectorCount = 3`,
`stackCount = 2`. -/
theorem generateSphere_vertex_count_witness :
    (0 : ℚ) < 1 ∧ 3 ≤ 3 ∧ 2 ≤ 2 ∧
      ((generateSphere ratTrig [] (1 : ℚ) 3 2).length = 6 * 3 * (2 - 1) * 6 ∧
        (generateSphere ratTrig [] (1 : ℚ) 3 2).length / 6 = 6 * 3 * (2 - 1)) :=
  ⟨by norm_num, by norm_num, by norm_num,
    generateSphere_vertex_count ratTrig 1 3 2 (by norm_num) (by norm_num)
      (by norm_num)⟩

/-- Claim C4: `generateSphere` emits, for each grid cell `(i,j)` in row-major
cell order, the triangle `(k1,k2,k3)` exactly when `i ≠ 0` and then the
triangle `(k2,k4,k3)` exactly when `i ≠ stackCount-1`, with
`k1 = i·(sectorCount+1)+j`, `k2 = k1+1`, `k3 = (i+1)·(sectorCount+1)+j`,
`k4 = k3+1`. -/
theorem generateSphere_triangulation {α : Type} [Field α] (ops : TrigOps α)
    (vertices : List α) (radius : α) (sectorCount stackCount : ℕ) :
    generateSphere ops vertices radius sectorCount stackCount =
      vertices ++ ((List.range stackCount).flatMap fun i =>
        (List.range sectorCount).flatMap fun j =>
          ((if i ≠ 0 then
              [i * (sectorCount + 1) + j, i * (sectorCount + 1) + j + 1,
                (i + 1) * (sectorCount + 1) + j]
            else []) ++
            (if i ≠ stackCount - 1 then
              [i * (sectorCount + 1) + j + 1, (i + 1) * (sectorCount + 1) + j + 1,
                (i + 1) * (sectorCount + 1) + j]
            else [])).flatMap
            (vertexData (sphereGridVertices ops radius sectorCount stackCount))) := by
  rw [generateSphere_eq]
  congr 1
  unfold sphereTriIndices
  rw [List.flatMap_assoc]
  refine congrArg _ (funext fun i => ?_)
  rw [List.flatMap_assoc]
  rfl

/-- Claim C7: the generated data depends only on `(radius, sectorCount,
stackCount)` and the math primitives — two calls with identical parameters
append identical data, whatever the prior contents of the output vector. -/
theorem generateSphere_deterministic {α : Type} [Field α] (ops : TrigOps α)
    (radius : α) (sectorCount stackCount : ℕ) (v w : List α) :
    (generateSphere ops v radius sectorCount stackCount).drop v.length =
      (generateSphere ops w radius sectorCount stackCount).drop w.length := by
  rw [generateSphere_eq, generateSphere_eq, List.drop_left, List.drop_left]

/-- Claim C9: `generateSphere` appends to the caller-supplied vector without
clearing it: the prior contents survive unchanged as the output's first
`|vertices|` elements, followed by the freshly generated data. -/
theorem generateSphere_appends_to_vector {α : Type} [Field α] (ops : TrigOps α)
    (vertices : List α) (radius : α) (sectorCount stackCount : ℕ) :
    (generateSphere ops vertices radius sectorCount stackCount).take
        vertices.length = vertices ∧
    generateSphere ops vertices radius sectorCount stackCount =
      vertices ++ generateSphere ops [] radius sectorCount stackCount := by
  constructor
  · rw [generateSphere_eq, List.take_left]
  · rw [generateSphere_eq, generateSphere_eq, List.nil_append]

/-- Claim C10: the temporary grid holds `6·(stackCount+1)·(sectorCount+1)`
floats and every read `tempVertices[k·6+t]` (`t ≤ 5`) performed by the
triangulation pass is in bounds. -/
theorem generateSphere_indices_in_bounds {α : Type} [Field α] (ops : TrigOps α)
    (radius : α) (sectorCount stackCount : ℕ)
    (hS : 3 ≤ sectorCount) (hSt : 2 ≤ stackCount) :
    (sphereGridVertices ops radius sectorCount stackCount).length =
      6 * (stackCount + 1) * (sectorCount + 1) ∧
    ∀ k ∈ sphereTriIndices sectorCount stackCount,
      k * 6 + 5 < 6 * (stackCount + 1) * (sectorCount + 1) := by
  refine ⟨sphereGridVertices_length ops radius sectorCount stackCount,
    fun k hk => ?_⟩
  have h := sphereTriIndices_bound sectorCount stackCount k hk
  have e : 6 * (stackCount + 1) * (sectorCount + 1) =
      6 * ((stackCount + 1) * (sectorCount + 1)) := by ring
  omega

/-- Witness for claim C10 at `sectorCount = 3`, `stackCount = 2`. -/
theorem generateSphere_indices_in_bounds_witness :
    3 ≤ 3 ∧ 2 ≤ 2 ∧
      ((sphereGridVertices ratTrig (1 : ℚ) 3 2).length = 6 * (2 + 1) * (3 + 1) ∧
        ∀ k ∈ sphereTriIndices 3 2, k * 6 + 5 < 6 * (2 + 1) * (3 + 1)) :=
  ⟨by norm_num, by norm_num,
    generateSphere_indices_in_bounds ratTrig 1 3 2 (by norm_num) (by norm_num)⟩

/-- Claim C5: for `radius > 0`, `sectorCount ≥ 3`, `stackCount ≥ 2`, every
vertex emitted by `generateSphere` (six floats starting at offset `6·m`)
satisfies `position = radius · normal` componentwise, and its normal has unit
length (exactly, in the real-number model of the floats). -/
theorem generateSphere_position_normal (radius : ℝ) (sectorCount stackCount m : ℕ)
    (hr : 0 < radius) (hS : 3 ≤ sectorCount) (hSt : 2 ≤ stackCount)
    (hm : 6 * m + 5 <
      (generateSphere realTrig [] radius sectorCount stackCount).length) :
    ((generateSphere realTrig [] radius sectorCount stackCount).getD (6 * m) 0 =
        radius * (generateSphere realTrig [] radius sectorCount
          stackCount).getD (6 * m + 3) 0 ∧
      (generateSphere realTrig [] radius sectorCount stackCount).getD
          (6 * m + 1) 0 =
        radius * (generateSphere realTrig [] radius sectorCount
          stackCount).getD (6 * m + 4) 0 ∧
      (generateSphere realTrig [] radius sectorCount stackCount).getD
          (6 * m + 2) 0 =
        radius * (generateSphere realTrig [] radius sectorCount
          stackCount).getD (6 * m + 5) 0) ∧
    ((generateSphere realTrig [] radius sectorCount stackCount).getD
        (6 * m + 3) 0) ^ 2 +
      ((generateSphere realTrig [] radius sectorCount stackCount).getD
        (6 * m + 4) 0) ^ 2 +
      ((generateSphere realTrig [] radius sectorCount stackCount).getD
        (6 * m + 5) 0) ^ 2 = 1 := by
  have hlen := generateSphere_length realTrig [] radius sectorCount stackCount hSt
  simp only [List.length_nil, Nat.zero_add] at hlen
  have htri := sphereTriIndices_length sectorCount stackCount hSt
  have hm' : m < (sphereTriIndices sectorCount stackCount).length := by
    rw [htri]
    rw [hlen] at hm
    have e : 36 * sectorCount * (stackCount - 1) =
        6 * (6 * sectorCount * (stackCount - 1)) := by ring
    omega
  have hout : generateSphere realTrig [] radius sectorCount stackCount =
      (sphereTriIndices sectorCount stackCount).flatMap
        (vertexData (sphereGridVertices realTrig radius sectorCount stackCount)) := by
    rw [generateSphere_eq, List.nil_append]
  have hread : ∀ t, t < 6 →
      (generateSphere realTrig [] radius sectorCount stackCount).getD
          (6 * m + t) 0 =
      (sphereGridVertices realTrig radius sectorCount stackCount).getD
          ((sphereTriIndices sectorCount stackCount).getD m 0 * 6 + t) 0 := by
    intro t ht
    rw [hout]
    have e6 : 6 * m + t = m * 6 + t := by ring
    rw [e6, flatMap_getD_const _ _ 6 (fun x => vertexData_length _ x) m t 0 0 hm' ht]
    exact vertexData_getD _ _ t 0 ht
  obtain ⟨k, hkdef⟩ : ∃ k, (sphereTriIndices sectorCount stackCount).getD m 0 = k :=
    ⟨_, rfl⟩
  rw [hkdef] at hread
  have hkmem : k ∈ sphereTriIndices sectorCount stackCount := by
    rw [← hkdef, List.getD_eq_getElem _ _ hm']
    exact List.getElem_mem _
  have hk : k < (stackCount + 1) * (sectorCount + 1) :=
    sphereTriIndices_bound sectorCount stackCount k hkmem
  obtain ⟨i, j, hjlt, hij⟩ :
      ∃ i j, j < sectorCount + 1 ∧ i * (sectorCount + 1) + j = k :=
    ⟨k / (sectorCount + 1), k % (sectorCount + 1),
      Nat.mod_lt _ (Nat.succ_pos _), Nat.div_add_mod' k (sectorCount + 1)⟩
  have hilt : i < stackCount + 1 := by
    by_contra hcon
    push_neg at hcon
    have hge : (stackCount + 1) * (sectorCount + 1) ≤ i * (sectorCount + 1) :=
      Nat.mul_le_mul_right _ hcon
    omega
  have hgrid : ∀ t, t < 6 →
      (sphereGridVertices realTrig radius sectorCount stackCount).getD
          (k * 6 + t) 0 =
      (gridChunk realTrig radius sectorCount stackCount i j).getD t 0 := by
    intro t ht
    rw [← hij]
    exact sphereGridVertices_getD realTrig radius sectorCount stackCount i j t 0
      hilt hjlt ht
  have hprops := gridChunk_props radius sectorCount stackCount i j hr
  have r0 := hread 0 (by norm_num)
  have r1 := hread 1 (by norm_num)
  have r2 := hread 2 (by norm_num)
  have r3 := hread 3 (by norm_num)
  have r4 := hread 4 (by norm_num)
  have r5 := hread 5 (by norm_num)
  have g0 := hgrid 0 (by norm_num)
  have g1 := hgrid 1 (by norm_num)
  have g2 := hgrid 2 (by norm_num)
  have g3 := hgrid 3 (by norm_num)
  have g4 := hgrid 4 (by norm_num)
  have g5 := hgrid 5 (by norm_num)
  simp only [Nat.add_zero] at r0 g0
  refine ⟨⟨?_, ?_, ?_⟩, ?_⟩
  · rw [r0, g0, r3, g3]; exact hprops.1.1
  · rw [r1, g1, r4, g4]; exact hprops.1.2.1
  · rw [r2, g2, r5, g5]; exact hprops.1.2.2
  · rw [r3, g3, r4, g4, r5, g5]; exact hprops.2

/-- Witness for claim C5 at `radius = 1`, `sectorCount = 3`, `stackCount = 2`,
first emitted vertex. -/
theorem generateSphere_position_normal_witness :
    (0 : ℝ) < 1 ∧ 3 ≤ 3 ∧ 2 ≤ 2 ∧
      6 * 0 + 5 < (generateSphere realTrig [] (1 : ℝ) 3 2).length ∧
      (((generateSphere realTrig [] (1 : ℝ) 3 2).getD (6 * 0) 0 =
          1 * (generateSphere realTrig [] (1 : ℝ) 3 2).getD (6 * 0 + 3) 0 ∧
        (generateSphere realTrig [] (1 : ℝ) 3 2).getD (6 * 0 + 1) 0 =
          1 * (generateSphere realTrig [] (1 : ℝ) 3 2).getD (6 * 0 + 4) 0 ∧
        (generateSphere realTrig [] (1 : ℝ) 3 2).getD (6 * 0 + 2) 0 =
          1 * (generateSphere realTrig [] (1 : ℝ) 3 2).getD (6 * 0 + 5) 0) ∧
      ((generateSphere realTrig [] (1 : ℝ) 3 2).getD (6 * 0 + 3) 0) ^ 2 +
        ((generateSphere realTrig [] (1 : ℝ) 3 2).getD (6 * 0 + 4) 0) ^ 2 +
        ((generateSphere realTrig [] (1 : ℝ) 3 2).getD (6 * 0 + 5) 0) ^ 2 = 1) := by
  have hm : 6 * 0 + 5 < (generateSphere realTrig [] (1 : ℝ) 3 2).length := by
    rw [generateSphere_length realTrig [] (1 : ℝ) 3 2 (by norm_num)]
    norm_num
  exact ⟨by norm_num, by norm_num, by norm_num, hm,
    generateSphere_position_normal 1 3 2 0 (by norm_num) (by norm_num)
      (by norm_num) hm⟩

/-- The per-tick light position of the render loop: the orbit center is
`(0, 0, 3.5)`, the radius `2`, the speed `1`; the loop overwrites the `x` and
`y` components of the light position with `sin(t·speed)·radius` and
`cos(t·speed)·radius` offsets from the center, while `z` keeps its initial
value `3.5`. -/
noncomputable def lightPosAt (t : ℝ) : ℝ × ℝ × ℝ :=
  let lightRadius : ℝ := 2
  let lightSpeed : ℝ := 1
  let angle : ℝ := t * lightSpeed
  (0 + Real.sin angle * lightRadius, 0 + Real.cos angle * lightRadius, 3.5)

/-- One draw submission of the multi-window render loop: which window it went
to and the value passed for its `lightPos` uniform. -/
structure SurfaceDraw where
  index : ℕ
  lightPosUniform : ℝ × ℝ × ℝ

/-- One tick of the multi-window render loop of the three-window demo: the
light position is recomputed once from the current time, then the loop walks
windows `0, 1, 2` in order, skipping any window that has requested close and
passing the shared light position to each remaining window's shader. -/
noncomputable def renderTick (t : ℝ) (shouldCloseFlags : Fin 3 → Bool) :
    List SurfaceDraw :=
  let lightPos := lightPosAt t
  (List.finRange 3).filterMap fun i =>
    if shouldCloseFlags i then none
    else some { index := (i : ℕ), lightPosUniform := lightPos }

/-- The `while` condition of the multi-window render loop: it keeps running
exactly while none of the three windows has requested close. -/
def loopContinues (shouldCloseFlags : Fin 3 → Bool) : Bool :=
  !shouldCloseFlags 0 && !shouldCloseFlags 1 && !shouldCloseFlags 2

/-- Claim C6: the light position follows the fixed circular orbit
`C + (R·sin(ω·t), R·cos(ω·t), 0)` with `C = (0,0,3.5)`, `R = 2`, `ω = 1`; at
`t = 0` it equals `(0, 2, 3.5)` and at `t = π/2` it equals `(2, 0, 3.5)`. -/
theorem lightPos_orbit :
    (∀ t : ℝ, lightPosAt t =
      (0 + 2 * Real.sin (1 * t), 0 + 2 * Real.cos (1 * t), 3.5 + 0)) ∧
    lightPosAt 0 = (0, 2, 3.5) ∧
    lightPosAt (Real.pi / 2) = (2, 0, 3.5) := by
  refine ⟨fun t => ?_, ?_, ?_⟩
  · simp only [lightPosAt, Prod.mk.injEq]
    refine ⟨by ring_nf, by ring_nf, by norm_num⟩
  · simp [lightPosAt]
  · simp [lightPosAt, Real.sin_pi_div_two, Real.cos_pi_div_two]

/-- Claim C3: within one tick the light position is computed once, before the
window loop, and every live window's draw receives that same value as its
`lightPos` uniform — so all draws of a tick carry identical light
positions. -/
theorem renderTick_lightPos_shared (t : ℝ) (shouldCloseFlags : Fin 3 → Bool) :
    (∀ d ∈ renderTick t shouldCloseFlags, d.lightPosUniform = lightPosAt t) ∧
    ∀ d₁ ∈ renderTick t shouldCloseFlags, ∀ d₂ ∈ renderTick t shouldCloseFlags,
      d₁.lightPosUniform = d₂.lightPosUniform := by
  have hall : ∀ d ∈ renderTick t shouldCloseFlags,
      d.lightPosUniform = lightPosAt t := by
    intro d hd
    simp only [renderTick, List.mem_filterMap] at hd
    obtain ⟨i, -, hi⟩ := hd
    cases hflag : shouldCloseFlags i with
    | true => simp [hflag] at hi
    | false =>
      simp [hflag] at hi
      subst hi
      rfl
  exact ⟨hall, fun d₁ h₁ d₂ h₂ => (hall d₁ h₁).trans (hall d₂ h₂).symm⟩

/-- Witness for claim C3: at `t = 0` with no window closed, the first draw is
present and carries the tick's light position. -/
theorem renderTick_lightPos_shared_witness :
    ({ index := 0, lightPosUniform := lightPosAt 0 } : SurfaceDraw) ∈
        renderTick 0 (fun _ => false) ∧
    ({ index := 0, lightPosUniform := lightPosAt 0 } : SurfaceDraw).lightPosUniform =
      lightPosAt 0 := by
  have hmem : ({ index := 0, lightPosUniform := lightPosAt 0 } : SurfaceDraw) ∈
      renderTick 0 (fun _ => false) := by
    simp only [renderTick, List.mem_filterMap]
    refine ⟨0, List.mem_finRange 0, ?_⟩
    simp
  exact ⟨hmem, (renderTick_lightPos_shared 0 (fun _ => false)).1 _ hmem⟩

/-- Counterexample to claim C2 as stated: with only window 0 flagged closed
(windows 1 and 2 still open), the loop condition is already false — the render
loop terminates even though not every surface has requested close. -/
theorem loopContinues_single_close_cex :
    loopContinues (fun i => decide (i = 0)) = false ∧
    ¬ ∀ i : Fin 3, (fun i : Fin 3 => decide (i = 0)) i = true := by
  decide

/-- Claim C2 (amended): the multi-window render loop runs only while all three
windows are open, so it terminates as soon as any one window has requested
close; inside a tick the per-window skip renders exactly the windows whose
close flag is unset, in order. -/
theorem loopContinues_iff_none_closed (shouldCloseFlags : Fin 3 → Bool)
    (t : ℝ) :
    (loopContinues shouldCloseFlags = false ↔
      shouldCloseFlags 0 = true ∨ shouldCloseFlags 1 = true ∨
        shouldCloseFlags 2 = true) ∧
    (renderTick t shouldCloseFlags).map SurfaceDraw.index =
      ((List.finRange 3).filter fun i => !shouldCloseFlags i).map Fin.val := by
  constructor
  · cases h0 : shouldCloseFlags 0 <;> cases h1 : shouldCloseFlags 1 <;>
      cases h2 : shouldCloseFlags 2 <;> simp [loopContinues, h0, h1, h2]
  · cases h0 : shouldCloseFlags 0 <;> cases h1 : shouldCloseFlags 1 <;>
      cases h2 : shouldCloseFlags 2 <;>
      simp [renderTick, List.finRange, h0, h1, h2]

/-- The outcome of the environment during the start-up of `main`: window
creation can fail, the GLAD loader can fail, or initialization succeeds and
the render loop eventually exits normally. -/
inductive InitOutcome where
  | windowFail
  | gladFail
  | success

/-- What `main` does on its way out: its return code, whether `glfwTerminate`
was called, and whether the vertex arrays/buffers were deleted. -/
structure MainExit where
  exitCode : Int
  glfwTerminated : Bool
  buffersDeleted : Bool

/-- The exit paths of `main` as written: on window-creation failure it prints,
calls `glfwTerminate` and returns `-1` (no buffers exist yet); on GLAD-loader
failure it prints and returns `-1` directly, with no teardown of any kind; on
normal loop exit it deletes the vertex arrays and buffers, calls
`glfwTerminate` and returns `0`. -/
def mainRun : InitOutcome → MainExit
  | InitOutcome.windowFail =>
    { exitCode := -1, glfwTerminated := true, buffersDeleted := false }
  | InitOutcome.gladFail =>
    { exitCode := -1, glfwTerminated := false, buffersDeleted := false }
  | InitOutcome.success =>
    { exitCode := 0, glfwTerminated := true, buffersDeleted := true }

/-- Claim C8 evaluation: on the GLAD-failure abort path, `main` returns `-1`
without calling `glfwTerminate` and without deleting any resources, so
explicit teardown does not happen on every exit path (it does happen on the
normal path). -/
theorem mainRun_gladFail_skips_teardown :
    (mainRun InitOutcome.gladFail).glfwTerminated = false ∧
    (mainRun InitOutcome.gladFail).buffersDeleted = false ∧
    (mainRun InitOutcome.gladFail).exitCode = -1 ∧
    (mainRun InitOutcome.success).glfwTerminated = true ∧
    (mainRun InitOutcome.success).buffersDeleted = true :=
  ⟨rfl, rfl, rfl, rfl, rfl⟩
